import Mathlib

/-!
Verification of the Vector library (vector.py) against its specification.

Embedding conventions:
* A `Vector`'s `coordinates` tuple of `Decimal` values is modelled as a
  `List ℚ` — exact decimal arithmetic idealized as exact rational
  arithmetic (the spec calls for "decimal-accurate, not merely native
  floating point" storage).
* Values produced through `sqrt` / `acos` (magnitude, normalized vectors,
  angles) live in `ℝ`; `math.sqrt` / `math.acos` are idealized as the
  exact real functions `Real.sqrt` / `Real.arccos`.
* Python exceptions are modelled with `Except VErr`.  The spec's error
  taxonomy names the kinds: the `TypeError('Vectors must have equal
  size.')` raised on length mismatch is `VErr.dimensionMismatch`, the
  `TypeError` raised for bad operand types is `VErr.unsupportedOperand`,
  and the three dedicated exception classes map to the remaining
  constructors.
-/

/-- Error kinds of the library, following the spec's error taxonomy and
the exception classes of vector.py. -/
inductive VErr where
  | invalidInput
  | dimensionMismatch
  | unsupportedOperand
  | cannotNormalizeZeroVector
  | noUniqueParallelComponent
  | noUniqueOrthogonalComponent
deriving DecidableEq, Repr

instance : DecidableEq (Except VErr (List ℚ)) := fun a b =>
  match a, b with
  | .ok x, .ok y => decidable_of_iff (x = y) (by simp)
  | .error x, .error y => decidable_of_iff (x = y) (by simp)
  | .ok _, .error _ => isFalse (by simp)
  | .error _, .ok _ => isFalse (by simp)

instance : DecidableEq (Except VErr Bool) := fun a b =>
  match a, b with
  | .ok x, .ok y => decidable_of_iff (x = y) (by simp)
  | .error x, .error y => decidable_of_iff (x = y) (by simp)
  | .ok _, .error _ => isFalse (by simp)
  | .error _, .ok _ => isFalse (by simp)

/-- The operand of `__add__` / `__sub__` / `__mul__`: another Vector, a
scalar (`Number`), or anything else. -/
inductive Operand where
  | vec (w : List ℚ)
  | scalar (s : ℚ)
  | other

/-- Model of `DEFAULT_TOLERANCE = 1e-10` (vector.py line 6), idealized as the
exact rational 10⁻¹⁰. -/
def DEFAULT_TOLERANCE : ℚ := 1 / 10 ^ 10

/-- Model of `Vector.__add__` (vector.py 217-230): a Vector operand is zipped
coordinate-wise (Python's `zip` truncates to the shorter argument — there
is no dimension check); a scalar is added to every coordinate; any other
operand raises `TypeError`. -/
def vadd (v : List ℚ) (o : Operand) : Except VErr (List ℚ) :=
  match o with
  | .vec w => .ok (List.zipWith (· + ·) v w)
  | .scalar s => .ok (v.map (fun e => e + s))
  | .other => .error .unsupportedOperand

/-- Model of `Vector.__sub__` (vector.py 232-245): same shape as `__add__`, with
coordinate-wise difference. -/
def vsub (v : List ℚ) (o : Operand) : Except VErr (List ℚ) :=
  match o with
  | .vec w => .ok (List.zipWith (· - ·) v w)
  | .scalar s => .ok (v.map (fun e => e - s))
  | .other => .error .unsupportedOperand

/-- Model of `Vector.scale` (vector.py 45-60): multiplies each coordinate by the
scalar. -/
def scale (v : List ℚ) (k : ℚ) : List ℚ := v.map (fun c => c * k)

/-- The summation inside `Vector.dot` (vector.py 79): sum of the
elementwise products of the zipped coordinates.  The length check that
guards it in `dot` is modelled at each call site, as in the source. -/
def qdot (v w : List ℚ) : ℚ := (List.zipWith (· * ·) v w).sum

/-- Model of `Vector.__eq__` (vector.py 262-279): `False` on length mismatch,
otherwise an index loop comparing the coordinates at each position. -/
def veq (v w : List ℚ) : Bool :=
  if v.length ≠ w.length then false
  else (List.range v.length).all (fun i => v.getD i 0 == w.getD i 0)

/-- Model of `Vector.is_orthogonal_with` (vector.py 169-187): raises on length
mismatch, otherwise `abs(self.dot(vector)) < tolerance`. -/
def is_orthogonal_with (v w : List ℚ) (tolerance : ℚ) : Except VErr Bool :=
  if v.length ≠ w.length then .error .dimensionMismatch
  else .ok (decide (|qdot v w| < tolerance))

/-- Model of `cross_product` (vector.py 290-307): reads coordinates 0,1,2 of each
argument (an out-of-range index raises, modelled as `none`) and builds
the standard 3-D cross product. -/
def cross_product (v w : List ℚ) : Option (List ℚ) :=
  match v.get? 0, v.get? 1, v.get? 2, w.get? 0, w.get? 1, w.get? 2 with
  | some v0, some v1, some v2, some w0, some w1, some w2 =>
      some [v1 * w2 - w1 * v2, -(v0 * w2 - w0 * v2), v0 * w1 - w0 * v1]
  | _, _, _, _, _, _ => none

/- ### Real-valued layer: magnitude, normalization, angles, projections -/

/-- Coordinates viewed as real numbers (Decimal values are exact
rationals, injected into `ℝ` for the `sqrt`/`acos` based operations). -/
def toR (v : List ℚ) : List ℝ := v.map (Rat.cast : ℚ → ℝ)

/-- The sum of squared coordinates, `sum([e ** 2 for e in
self.coordinates])` inside `Vector.magnitude` (vector.py 118). -/
def sumSq (v : List ℚ) : ℚ := (v.map (fun e => e ^ 2)).sum

/-- Model of `Vector.magnitude` (vector.py 108-118): square root of the sum of
squared coordinates; `math.sqrt` idealized as `Real.sqrt`. -/
noncomputable def magnitude (v : List ℚ) : ℝ := Real.sqrt (sumSq v)

/-- Model of `Vector.scale` at a real-coordinate vector (as produced by
`normalized`): each coordinate times the scalar. -/
def rscale (v : List ℝ) (k : ℝ) : List ℝ := v.map (fun c => c * k)

/-- The summation inside `Vector.dot`, at real coordinates. -/
def rdot (v w : List ℝ) : ℝ := (List.zipWith (· * ·) v w).sum

/-- The Vector branch of `__add__`, at real coordinates. -/
def raddV (v w : List ℝ) : List ℝ := List.zipWith (· + ·) v w

/-- The Vector branch of `__sub__`, at real coordinates. -/
def rsubV (v w : List ℝ) : List ℝ := List.zipWith (· - ·) v w

/-- Model of `Vector.normalized` (vector.py 120-134): `self.scale(Decimal(1) /
self.magnitude)`, with the `ZeroDivisionError` (raised exactly when
`self.magnitude == 0`) re-raised as `CannotNormalizeZeroVector`.  The
guard is written as the equivalent decidable test `sumSq v = 0`
(`magnitude_eq_zero_iff_sumSq` below proves the equivalence). -/
noncomputable def normalized (v : List ℚ) : Except VErr (List ℝ) :=
  if sumSq v = 0 then .error .cannotNormalizeZeroVector
  else .ok (rscale (toR v) (1 / magnitude v))

/-- The value a successful `Vector.normalized` returns: each coordinate
times `1 / magnitude`. -/
noncomputable def unitOf (v : List ℚ) : List ℝ := rscale (toR v) (1 / magnitude v)

/-- Model of `Vector.is_zero` (vector.py 136-145): `self.magnitude < tolerance`. -/
def is_zero (v : List ℚ) (tolerance : ℝ) : Prop := magnitude v < tolerance

/-- Model of `round(p, 3)` (vector.py 210): rounding to 3 decimal places,
idealized with Mathlib's `round` (the Decimal half-even tie rule differs
from `round` only at exact ties, which the spec does not pin down). -/
noncomputable def round3 (x : ℝ) : ℝ := (round (x * 1000) : ℤ) / 1000

/-- Model of `Vector.angle_with` (vector.py 189-215): length check, then
`acos(round(u1 · u2, 3))`, returned in radians or converted with
`math.degrees` (multiplication by `180 / π`). -/
noncomputable def angle_with (v w : List ℚ) (radians : Bool) : Except VErr ℝ :=
  if v.length ≠ w.length then .error .dimensionMismatch
  else do
    let u1 ← normalized v
    let u2 ← normalized w
    let p := rdot u1 u2
    let teta := Real.arccos (round3 p)
    if radians then pure teta else pure (teta * (180 / Real.pi))

/-- The angle value `acos(round(u1 · u2, 3))` that `angle_with` computes
from the normalized forms `u1`, `u2` of its arguments (vector.py
206-210). -/
noncomputable def angleVal (v w : List ℚ) : ℝ :=
  Real.arccos (round3 (rdot (unitOf v) (unitOf w)))

open Classical in
/-- Model of `Vector.is_parallel_with` (vector.py 147-167): length check, then
`self.is_zero() or vector.is_zero() or self.angle_with(vector) == 0 or
self.angle_with(vector) == pi`.  Python's `or` short-circuits past the
(pure) `angle_with` calls when an `is_zero` test succeeds, so the zero
tests are sequenced before the angle computation; the result of the
real-number comparisons is modelled as a proposition. -/
noncomputable def is_parallel_with (v w : List ℚ) : Except VErr Prop :=
  if v.length ≠ w.length then .error .dimensionMismatch
  else if is_zero v (DEFAULT_TOLERANCE : ℝ) then .ok True
  else if is_zero w (DEFAULT_TOLERANCE : ℝ) then .ok True
  else do
    let θ₁ ← angle_with v w true
    let θ₂ ← angle_with v w true
    pure (θ₁ = 0 ∨ θ₂ = Real.pi)

/-- Model of `Vector.component_parallel_to` (vector.py 94-106): normalize the
basis (translating `CannotNormalizeZeroVector` to
`NoUniqueParallelComponent`), take `weight = self.dot(basis)` (whose
length check raises on dimension mismatch), return
`basis.scale(weight)`. -/
noncomputable def component_parallel_to (v b : List ℚ) : Except VErr (List ℝ) :=
  match normalized b with
  | .error .cannotNormalizeZeroVector => .error .noUniqueParallelComponent
  | .error e => .error e
  | .ok basis =>
      if v.length ≠ basis.length then .error .dimensionMismatch
      else .ok (rscale basis (rdot (toR v) basis))

/-- Model of `Vector.component_orthogonal_to` (vector.py 81-92): delegate to
`component_parallel_to` (translating `NoUniqueParallelComponent` to
`NoUniqueOrthogonalComponent`), then `self - projection`. -/
noncomputable def component_orthogonal_to (v b : List ℚ) : Except VErr (List ℝ) :=
  match component_parallel_to v b with
  | .error .noUniqueParallelComponent => .error .noUniqueOrthogonalComponent
  | .error e => .error e
  | .ok projection => .ok (rsubV (toR v) projection)

/- ### Lemmas about the real-valued layer -/

lemma sumSq_nonneg (v : List ℚ) : 0 ≤ sumSq v := by
  induction v with
  | nil => simp [sumSq]
  | cons x xs ih =>
    simp only [sumSq, List.map_cons, List.sum_cons] at *
    have := sq_nonneg x
    linarith

lemma sumSq_eq_zero_iff (v : List ℚ) : sumSq v = 0 ↔ ∀ c ∈ v, c = 0 := by
  induction v with
  | nil => simp [sumSq]
  | cons x xs ih =>
    simp only [sumSq, List.map_cons, List.sum_cons, List.mem_cons] at *
    constructor
    · intro h
      have hx := sq_nonneg x
      have hxs := sumSq_nonneg xs
      simp only [sumSq] at hxs
      have hx0 : x ^ 2 = 0 := by linarith
      have hxz : x = 0 := by
        have := pow_eq_zero_iff (n := 2) (by norm_num) |>.mp hx0
        exact this
      refine fun c hc => hc.elim (fun h1 => h1 ▸ hxz) (fun h2 => ?_)
      exact ih.mp (by linarith [hx0]) c h2
    · intro h
      have hxz : x = 0 := h x (Or.inl rfl)
      have hrest : (xs.map (fun e => e ^ 2)).sum = 0 :=
        ih.mpr (fun c hc => h c (Or.inr hc))
      simp [hxz, hrest]

lemma magnitude_nonneg (v : List ℚ) : 0 ≤ magnitude v :=
  Real.sqrt_nonneg _

lemma magnitude_eq_zero_iff_sumSq (v : List ℚ) :
    magnitude v = 0 ↔ sumSq v = 0 := by
  unfold magnitude
  rw [Real.sqrt_eq_zero (by exact_mod_cast sumSq_nonneg v)]
  exact_mod_cast Iff.rfl

lemma normalized_ok (v : List ℚ) (h : sumSq v ≠ 0) :
    normalized v = .ok (unitOf v) := by
  simp [normalized, unitOf, h]

lemma normalized_err (v : List ℚ) (h : sumSq v = 0) :
    normalized v = .error .cannotNormalizeZeroVector := by
  simp [normalized, h]

lemma rscale_length (v : List ℝ) (k : ℝ) : (rscale v k).length = v.length := by
  simp [rscale]

lemma toR_length (v : List ℚ) : (toR v).length = v.length := by
  unfold toR
  exact List.length_map _ _

lemma unitOf_length (v : List ℚ) : (unitOf v).length = v.length := by
  rw [unitOf, rscale_length, toR_length]

/- ### Helper lemmas on lists -/

lemma zipWith_getD (f : ℚ → ℚ → ℚ) (a b : List ℚ) (i : ℕ)
    (h1 : i < a.length) (h2 : i < b.length) :
    (List.zipWith f a b).getD i 0 = f (a.getD i 0) (b.getD i 0) := by
  induction a generalizing b i with
  | nil => simp at h1
  | cons x xs ih =>
    cases b with
    | nil => simp at h2
    | cons y ys =>
      cases i with
      | zero => simp
      | succ j =>
        simp only [List.zipWith_cons_cons, List.getD_cons_succ]
        exact ih ys j (by simpa using h1) (by simpa using h2)

lemma map_getD (f : ℚ → ℚ) (v : List ℚ) (i : ℕ) (h : i < v.length) :
    (v.map f).getD i 0 = f (v.getD i 0) := by
  induction v generalizing i with
  | nil => simp at h
  | cons x xs ih =>
    cases i with
    | zero => simp
    | succ j =>
      simp only [List.map_cons, List.getD_cons_succ]
      exact ih j (by simpa using h)

lemma zipWith_add_sub_cancel (a b : List ℚ) (h : a.length = b.length) :
    List.zipWith (· - ·) (List.zipWith (· + ·) a b) b = a := by
  induction a generalizing b with
  | nil => simp
  | cons x xs ih =>
    cases b with
    | nil => simp at h
    | cons y ys =>
      simp only [List.zipWith_cons_cons, add_sub_cancel_right, List.cons.injEq, true_and]
      exact ih ys (by simpa using h)

lemma veq_refl (v : List ℚ) : veq v v = true := by
  simp [veq]

lemma raddV_rsubV_cancel (a p : List ℝ) (h : p.length = a.length) :
    raddV p (rsubV a p) = a := by
  unfold raddV rsubV
  induction p generalizing a with
  | nil => cases a with
    | nil => simp
    | cons y ys => simp at h
  | cons x xs ih =>
    cases a with
    | nil => simp at h
    | cons y ys =>
      simp only [List.zipWith_cons_cons, add_sub_cancel, List.cons.injEq, true_and]
      exact ih ys (by simpa using h)

lemma list_three (v : List ℚ) (h : 3 ≤ v.length) :
    ∃ a b c r, v = a :: b :: c :: r := by
  match v, h with
  | a :: b :: c :: r, _ => exact ⟨a, b, c, r, rfl⟩

lemma sumSq_cast (v : List ℚ) :
    ((sumSq v : ℚ) : ℝ) = ((toR v).map (fun e => e ^ 2)).sum := by
  induction v with
  | nil => simp [sumSq, toR]
  | cons x xs ih =>
    simp only [sumSq, toR, List.map_cons, List.sum_cons] at *
    rw [Rat.cast_add, ih, Rat.cast_pow]

/- ### Tolerance and zero-test lemmas -/

lemma default_tolerance_pos : (0 : ℝ) < ((DEFAULT_TOLERANCE : ℚ) : ℝ) := by
  norm_num [DEFAULT_TOLERANCE]

lemma not_is_zero_sumSq (v : List ℚ)
    (h : ¬ is_zero v ((DEFAULT_TOLERANCE : ℚ) : ℝ)) : sumSq v ≠ 0 := by
  intro h0
  apply h
  unfold is_zero
  rw [(magnitude_eq_zero_iff_sumSq v).mpr h0]
  exact default_tolerance_pos

/- ### Evaluation lemma for angle_with -/

lemma angle_with_eval (v w : List ℚ) (r : Bool) (hl : v.length = w.length)
    (hv : sumSq v ≠ 0) (hw : sumSq w ≠ 0) :
    angle_with v w r =
      .ok (if r then angleVal v w else angleVal v w * (180 / Real.pi)) := by
  rw [angle_with, if_neg (by simp [hl])]
  rw [normalized_ok v hv, normalized_ok w hw]
  cases r <;> simp [Bind.bind, Except.bind, angleVal, pure, Except.pure]

lemma angle_with_err (v w : List ℚ) (r : Bool) (hl : v.length = w.length)
    (h : sumSq v = 0 ∨ sumSq w = 0) :
    angle_with v w r = .error .cannotNormalizeZeroVector := by
  rw [angle_with, if_neg (by simp [hl])]
  rcases h with h | h
  · rw [normalized_err v h]
    rfl
  · rcases em (sumSq v = 0) with hv | hv
    · rw [normalized_err v hv]
      rfl
    · rw [normalized_ok v hv, normalized_err w h]
      rfl

/- ### Evaluation lemmas for the projection operations -/

lemma component_parallel_to_zero (v b : List ℚ) (h : sumSq b = 0) :
    component_parallel_to v b = .error .noUniqueParallelComponent := by
  unfold component_parallel_to
  rw [normalized_err b h]

lemma component_parallel_to_mismatch (v b : List ℚ) (h : sumSq b ≠ 0)
    (hl : v.length ≠ b.length) :
    component_parallel_to v b = .error .dimensionMismatch := by
  unfold component_parallel_to
  rw [normalized_ok b h]
  exact if_pos (by simpa [unitOf_length] using hl)

lemma component_parallel_to_ok (v b : List ℚ) (h : sumSq b ≠ 0)
    (hl : v.length = b.length) :
    component_parallel_to v b = .ok (rscale (unitOf b) (rdot (toR v) (unitOf b))) := by
  unfold component_parallel_to
  rw [normalized_ok b h]
  exact if_neg (by simp [unitOf_length, hl])

lemma component_orthogonal_to_zero (v b : List ℚ) (h : sumSq b = 0) :
    component_orthogonal_to v b = .error .noUniqueOrthogonalComponent := by
  unfold component_orthogonal_to
  rw [component_parallel_to_zero v b h]

lemma component_orthogonal_to_mismatch (v b : List ℚ) (h : sumSq b ≠ 0)
    (hl : v.length ≠ b.length) :
    component_orthogonal_to v b = .error .dimensionMismatch := by
  unfold component_orthogonal_to
  rw [component_parallel_to_mismatch v b h hl]

lemma component_orthogonal_to_ok (v b : List ℚ) (h : sumSq b ≠ 0)
    (hl : v.length = b.length) :
    component_orthogonal_to v b =
      .ok (rsubV (toR v) (rscale (unitOf b) (rdot (toR v) (unitOf b)))) := by
  unfold component_orthogonal_to
  rw [component_parallel_to_ok v b h hl]

lemma component_parallel_to_never_cnz (x y : List ℚ) :
    component_parallel_to x y ≠ .error .cannotNormalizeZeroVector := by
  rcases em (sumSq y = 0) with h | h
  · rw [component_parallel_to_zero x y h]
    simp
  · rcases em (x.length = y.length) with hl | hl
    · rw [component_parallel_to_ok x y h hl]
      simp
    · rw [component_parallel_to_mismatch x y h hl]
      simp

lemma component_orthogonal_to_never_cnz (x y : List ℚ) :
    component_orthogonal_to x y ≠ .error .cannotNormalizeZeroVector := by
  rcases em (sumSq y = 0) with h | h
  · rw [component_orthogonal_to_zero x y h]
    simp
  · rcases em (x.length = y.length) with hl | hl
    · rw [component_orthogonal_to_ok x y h hl]
      simp
    · rw [component_orthogonal_to_mismatch x y h hl]
      simp

/- ### Claim theorems -/

/-- C1 (counterexample): the original claim — "for every two Vectors of
unequal dimension, add and subtract fail with a DimensionMismatch error"
— is false: `Vector([1, 2]) + Vector([3])` returns `Vector([4])` (the
zipped, truncated sum) and `Vector([1, 2]) - Vector([3])` returns
`Vector([-2])`; neither raises. -/
theorem add_sub_mismatch_counterexample :
    [(1 : ℚ), 2].length ≠ [(3 : ℚ)].length ∧
    vadd [(1 : ℚ), 2] (.vec [3]) ≠ .error .dimensionMismatch ∧
    vsub [(1 : ℚ), 2] (.vec [3]) ≠ .error .dimensionMismatch ∧
    vadd [(1 : ℚ), 2] (.vec [3]) = .ok [4] ∧
    vsub [(1 : ℚ), 2] (.vec [3]) = .ok [-2] := by
  refine ⟨by decide, by decide, by decide, ?_, ?_⟩ <;> norm_num [vadd, vsub]

/-- C1 (amended): `__add__`/`__sub__` with a Vector operand return the
elementwise sum/difference of the zipped coordinate lists, truncated to
the shorter dimension (no dimension check, so for equal dimensions this
is the full elementwise sum/difference); a scalar operand is
added/subtracted per coordinate; any other operand fails with
`UnsupportedOperand`. -/
theorem add_sub_spec (v w : List ℚ) (s : ℚ) (i : ℕ)
    (h1 : i < v.length) (h2 : i < w.length) :
    (∃ r, vadd v (.vec w) = .ok r ∧ r.length = min v.length w.length ∧
       r.getD i 0 = v.getD i 0 + w.getD i 0) ∧
    (∃ r, vsub v (.vec w) = .ok r ∧ r.length = min v.length w.length ∧
       r.getD i 0 = v.getD i 0 - w.getD i 0) ∧
    (∃ r, vadd v (.scalar s) = .ok r ∧ r.length = v.length ∧
       r.getD i 0 = v.getD i 0 + s) ∧
    (∃ r, vsub v (.scalar s) = .ok r ∧ r.length = v.length ∧
       r.getD i 0 = v.getD i 0 - s) ∧
    vadd v .other = .error .unsupportedOperand ∧
    vsub v .other = .error .unsupportedOperand := by
  refine ⟨⟨_, rfl, ?_, ?_⟩, ⟨_, rfl, ?_, ?_⟩, ⟨_, rfl, ?_, ?_⟩, ⟨_, rfl, ?_, ?_⟩, rfl, rfl⟩
  · exact List.length_zipWith _ _ _
  · exact zipWith_getD _ v w i h1 h2
  · exact List.length_zipWith _ _ _
  · exact zipWith_getD _ v w i h1 h2
  · exact List.length_map _ _
  · exact map_getD _ v i h1
  · exact List.length_map _ _
  · exact map_getD _ v i h1

/-- Witness for the amended C1 at `v = [1, 2]`, `w = [3]`, `s = 5`,
`i = 0`. -/
theorem add_sub_spec_witness :
    0 < [(1 : ℚ), 2].length ∧ 0 < [(3 : ℚ)].length ∧
    ((∃ r, vadd [(1 : ℚ), 2] (.vec [3]) = .ok r ∧
        r.length = min [(1 : ℚ), 2].length [(3 : ℚ)].length ∧
        r.getD 0 0 = [(1 : ℚ), 2].getD 0 0 + [(3 : ℚ)].getD 0 0) ∧
     (∃ r, vsub [(1 : ℚ), 2] (.vec [3]) = .ok r ∧
        r.length = min [(1 : ℚ), 2].length [(3 : ℚ)].length ∧
        r.getD 0 0 = [(1 : ℚ), 2].getD 0 0 - [(3 : ℚ)].getD 0 0) ∧
     (∃ r, vadd [(1 : ℚ), 2] (.scalar 5) = .ok r ∧
        r.length = [(1 : ℚ), 2].length ∧
        r.getD 0 0 = [(1 : ℚ), 2].getD 0 0 + 5) ∧
     (∃ r, vsub [(1 : ℚ), 2] (.scalar 5) = .ok r ∧
        r.length = [(1 : ℚ), 2].length ∧
        r.getD 0 0 = [(1 : ℚ), 2].getD 0 0 - 5) ∧
     vadd [(1 : ℚ), 2] .other = .error .unsupportedOperand ∧
     vsub [(1 : ℚ), 2] .other = .error .unsupportedOperand) :=
  ⟨by decide, by decide, add_sub_spec [1, 2] [3] 5 0 (by decide) (by decide)⟩

/-- C2: `normalized` fails with `CannotNormalizeZeroVector` exactly when
the magnitude is zero, and otherwise returns the vector scaled by
`1 / magnitude`. -/
theorem normalized_spec (v : List ℚ) :
    (normalized v = .error .cannotNormalizeZeroVector ↔ magnitude v = 0) ∧
    (magnitude v ≠ 0 →
      normalized v = .ok (rscale (toR v) (1 / magnitude v))) := by
  constructor
  · rw [magnitude_eq_zero_iff_sumSq]
    rcases em (sumSq v = 0) with h | h
    · simp [normalized_err v h, h]
    · simp [normalized_ok v h, h, unitOf]
  · intro h
    exact normalized_ok v (fun h0 => h ((magnitude_eq_zero_iff_sumSq v).mpr h0))

/-- Witness for C2 at `v = [3, 4]` (nonzero magnitude) — together with
the error direction at the zero vector `[0, 0]`. -/
theorem normalized_spec_witness :
    magnitude [(3 : ℚ), 4] ≠ 0 ∧
    normalized [(3 : ℚ), 4] =
      .ok (rscale (toR [(3 : ℚ), 4]) (1 / magnitude [(3 : ℚ), 4])) ∧
    normalized [(0 : ℚ), 0] = .error .cannotNormalizeZeroVector := by
  have h : magnitude [(3 : ℚ), 4] ≠ 0 := by
    rw [Ne, magnitude_eq_zero_iff_sumSq]
    norm_num [sumSq]
  refine ⟨h, (normalized_spec [3, 4]).2 h, ?_⟩
  exact (normalized_spec [0, 0]).1.mpr
    ((magnitude_eq_zero_iff_sumSq _).mpr (by norm_num [sumSq]))

/-- C3: the magnitude is the square root of the sum of the squared
coordinates, is nonnegative, and vanishes exactly on the zero vector. -/
theorem magnitude_spec (v : List ℚ) :
    magnitude v = Real.sqrt (((toR v).map (fun e => e ^ 2)).sum) ∧
    0 ≤ magnitude v ∧
    (magnitude v = 0 ↔ ∀ c ∈ v, c = 0) := by
  refine ⟨?_, magnitude_nonneg v, ?_⟩
  · rw [magnitude, sumSq_cast]
  · rw [magnitude_eq_zero_iff_sumSq, sumSq_eq_zero_iff]

/-- Witness for C3: nonnegativity at `[3, 4]` and the zero
characterization at `[0, 0]`. -/
theorem magnitude_spec_witness :
    0 ≤ magnitude [(3 : ℚ), 4] ∧ magnitude [(0 : ℚ), 0] = 0 :=
  ⟨(magnitude_spec [3, 4]).2.1, (magnitude_spec [0, 0]).2.2.mpr (by simp)⟩

/-- C8: for equal-dimension vectors `a`, `b`, `(a + b) - b == a` under
the library's exact coordinate equality `__eq__`. -/
theorem add_sub_inverse_spec (a b : List ℚ) (h : a.length = b.length) :
    ∃ c r, vadd a (.vec b) = .ok c ∧ vsub c (.vec b) = .ok r ∧
      veq r a = true := by
  refine ⟨_, _, rfl, rfl, ?_⟩
  rw [zipWith_add_sub_cancel a b h]
  exact veq_refl a

/-- Witness for C8 at `a = [1, 2]`, `b = [3, 5]`. -/
theorem add_sub_inverse_spec_witness :
    [(1 : ℚ), 2].length = [(3 : ℚ), 5].length ∧
    (∃ c r, vadd [(1 : ℚ), 2] (.vec [3, 5]) = .ok c ∧
       vsub c (.vec [3, 5]) = .ok r ∧ veq r [(1 : ℚ), 2] = true) :=
  ⟨rfl, add_sub_inverse_spec [1, 2] [3, 5] rfl⟩

/-- C9: `is_orthogonal_with` fails with `DimensionMismatch` on unequal
dimensions and otherwise returns `true` exactly when the absolute value
of the dot product is strictly below the tolerance. -/
theorem is_orthogonal_with_spec (v w : List ℚ) (t : ℚ) :
    (v.length ≠ w.length →
      is_orthogonal_with v w t = .error .dimensionMismatch) ∧
    (v.length = w.length →
      ∃ b, is_orthogonal_with v w t = .ok b ∧
        (b = true ↔ |qdot v w| < t)) := by
  constructor
  · intro h
    simp [is_orthogonal_with, h]
  · intro h
    exact ⟨decide (|qdot v w| < t), by simp [is_orthogonal_with, h], by simp⟩

/-- Witness for C9 with the default tolerance 1e-10: equal dimensions at
`[1, 0]`, `[0, 1]`, and a dimension mismatch at `[1]`, `[0, 1]`. -/
theorem is_orthogonal_with_spec_witness :
    ([(1 : ℚ), 0].length = [(0 : ℚ), 1].length ∧
      ∃ b, is_orthogonal_with [(1 : ℚ), 0] [(0 : ℚ), 1] DEFAULT_TOLERANCE = .ok b ∧
        (b = true ↔ |qdot [(1 : ℚ), 0] [(0 : ℚ), 1]| < DEFAULT_TOLERANCE)) ∧
    ([(1 : ℚ)].length ≠ [(0 : ℚ), 1].length ∧
      is_orthogonal_with [(1 : ℚ)] [(0 : ℚ), 1] DEFAULT_TOLERANCE =
        .error .dimensionMismatch) :=
  ⟨⟨rfl, (is_orthogonal_with_spec [1, 0] [0, 1] DEFAULT_TOLERANCE).2 rfl⟩,
   ⟨by decide, (is_orthogonal_with_spec [1] [0, 1] DEFAULT_TOLERANCE).1 (by decide)⟩⟩

/-- C10: for inputs of dimension at least 3, `cross_product` succeeds
(no dimension error), yields a 3-dimensional vector given by the
standard cross-product formula on the first three coordinates, and is
unchanged by dropping any coordinates beyond the first three. -/
theorem cross_product_spec (v w : List ℚ) (h1 : 3 ≤ v.length)
    (h2 : 3 ≤ w.length) :
    ∃ r, cross_product v w = some r ∧ r.length = 3 ∧
      cross_product v w = cross_product (v.take 3) (w.take 3) ∧
      r = [v.getD 1 0 * w.getD 2 0 - w.getD 1 0 * v.getD 2 0,
           -(v.getD 0 0 * w.getD 2 0 - w.getD 0 0 * v.getD 2 0),
           v.getD 0 0 * w.getD 1 0 - w.getD 0 0 * v.getD 1 0] := by
  obtain ⟨a, b, c, r, rfl⟩ := list_three v h1
  obtain ⟨d, e, f, s, rfl⟩ := list_three w h2
  exact ⟨_, rfl, rfl, rfl, rfl⟩

/-- Witness for C10 at the 4-dimensional inputs `[1, 0, 0, 7]` and
`[0, 1, 0, 9]` (the fourth coordinates are ignored). -/
theorem cross_product_spec_witness :
    3 ≤ [(1 : ℚ), 0, 0, 7].length ∧ 3 ≤ [(0 : ℚ), 1, 0, 9].length ∧
    (∃ r, cross_product [(1 : ℚ), 0, 0, 7] [(0 : ℚ), 1, 0, 9] = some r ∧
      r.length = 3 ∧
      cross_product [(1 : ℚ), 0, 0, 7] [(0 : ℚ), 1, 0, 9] =
        cross_product ([(1 : ℚ), 0, 0, 7].take 3) ([(0 : ℚ), 1, 0, 9].take 3) ∧
      r = [[(1 : ℚ), 0, 0, 7].getD 1 0 * [(0 : ℚ), 1, 0, 9].getD 2 0 -
             [(0 : ℚ), 1, 0, 9].getD 1 0 * [(1 : ℚ), 0, 0, 7].getD 2 0,
           -([(1 : ℚ), 0, 0, 7].getD 0 0 * [(0 : ℚ), 1, 0, 9].getD 2 0 -
             [(0 : ℚ), 1, 0, 9].getD 0 0 * [(1 : ℚ), 0, 0, 7].getD 2 0),
           [(1 : ℚ), 0, 0, 7].getD 0 0 * [(0 : ℚ), 1, 0, 9].getD 1 0 -
             [(0 : ℚ), 1, 0, 9].getD 0 0 * [(1 : ℚ), 0, 0, 7].getD 1 0]) :=
  ⟨by decide, by decide,
   cross_product_spec [1, 0, 0, 7] [0, 1, 0, 9] (by decide) (by decide)⟩

/-- C5: for equal-dimension vectors, `angle_with` on two nonzero vectors
returns `acos` of the dot product of their normalized forms — the dot
product rounded to 3 decimal places first — in radians by default and
multiplied by `180 / π` for degrees; if either vector has zero magnitude
the `CannotNormalizeZeroVector` failure propagates. -/
theorem angle_with_spec (v w : List ℚ) (r : Bool) (hl : v.length = w.length) :
    (sumSq v ≠ 0 → sumSq w ≠ 0 →
      normalized v = .ok (unitOf v) ∧ normalized w = .ok (unitOf w) ∧
      angle_with v w r =
        .ok (if r then Real.arccos (round3 (rdot (unitOf v) (unitOf w)))
             else Real.arccos (round3 (rdot (unitOf v) (unitOf w))) *
               (180 / Real.pi))) ∧
    ((sumSq v = 0 ∨ sumSq w = 0) →
      angle_with v w r = .error .cannotNormalizeZeroVector) := by
  constructor
  · intro hv hw
    refine ⟨normalized_ok v hv, normalized_ok w hw, ?_⟩
    simpa [angleVal] using angle_with_eval v w r hl hv hw
  · exact angle_with_err v w r hl

/-- Witness for C5: the nonzero case at `[1, 0]`, `[0, 1]` (in radians)
and the propagated failure at `[0, 0]`, `[0, 1]`. -/
theorem angle_with_spec_witness :
    [(1 : ℚ), 0].length = [(0 : ℚ), 1].length ∧
    sumSq [(1 : ℚ), 0] ≠ 0 ∧ sumSq [(0 : ℚ), 1] ≠ 0 ∧
    (normalized [(1 : ℚ), 0] = .ok (unitOf [(1 : ℚ), 0]) ∧
     normalized [(0 : ℚ), 1] = .ok (unitOf [(0 : ℚ), 1]) ∧
     angle_with [(1 : ℚ), 0] [(0 : ℚ), 1] true =
       .ok (if true then
              Real.arccos (round3 (rdot (unitOf [(1 : ℚ), 0]) (unitOf [(0 : ℚ), 1])))
            else
              Real.arccos (round3 (rdot (unitOf [(1 : ℚ), 0]) (unitOf [(0 : ℚ), 1]))) *
                (180 / Real.pi))) ∧
    angle_with [(0 : ℚ), 0] [(0 : ℚ), 1] true = .error .cannotNormalizeZeroVector := by
  have hv : sumSq [(1 : ℚ), 0] ≠ 0 := by norm_num [sumSq]
  have hw : sumSq [(0 : ℚ), 1] ≠ 0 := by norm_num [sumSq]
  have hz : sumSq [(0 : ℚ), 0] = 0 := by norm_num [sumSq]
  exact ⟨rfl, hv, hw,
    (angle_with_spec [1, 0] [0, 1] true rfl).1 hv hw,
    (angle_with_spec [0, 0] [0, 1] true rfl).2 (Or.inl hz)⟩

/-- C4: `is_parallel_with` fails with `DimensionMismatch` on unequal
dimensions; on equal dimensions it returns true exactly when one of the
vectors is zero (magnitude below the default 1e-10 tolerance), or the
angle `angle_with` computes between them is exactly 0 or exactly π
radians. -/
theorem is_parallel_with_spec (v w : List ℚ) :
    (v.length ≠ w.length →
      is_parallel_with v w = .error .dimensionMismatch) ∧
    (v.length = w.length →
      ∃ p, is_parallel_with v w = .ok p ∧
        (p ↔ is_zero v ((DEFAULT_TOLERANCE : ℚ) : ℝ) ∨
              is_zero w ((DEFAULT_TOLERANCE : ℚ) : ℝ) ∨
              ∃ θ, angle_with v w true = .ok θ ∧ (θ = 0 ∨ θ = Real.pi))) := by
  constructor
  · intro h
    unfold is_parallel_with
    rw [if_pos h]
  · intro hl
    unfold is_parallel_with
    rw [if_neg (by simp [hl])]
    by_cases hv : is_zero v ((DEFAULT_TOLERANCE : ℚ) : ℝ)
    · rw [if_pos hv]
      exact ⟨True, rfl, by simp [hv]⟩
    · rw [if_neg hv]
      by_cases hw : is_zero w ((DEFAULT_TOLERANCE : ℚ) : ℝ)
      · rw [if_pos hw]
        exact ⟨True, rfl, by simp [hw]⟩
      · rw [if_neg hw]
        have hv' := not_is_zero_sumSq v hv
        have hw' := not_is_zero_sumSq w hw
        have he : angle_with v w true = .ok (angleVal v w) := by
          simpa using angle_with_eval v w true hl hv' hw'
        rw [he]
        refine ⟨angleVal v w = 0 ∨ angleVal v w = Real.pi, rfl, ?_⟩
        constructor
        · intro hp
          exact Or.inr (Or.inr ⟨angleVal v w, rfl, hp⟩)
        · rintro (h | h | ⟨θ, hθ, hd⟩)
          · exact absurd h hv
          · exact absurd h hw
          · obtain rfl : angleVal v w = θ := Except.ok.inj hθ
            exact hd

/-- Witness for C4: the zero-vector case at `[2, 4]`, `[0, 0]` (equal
dimensions) and a dimension mismatch at `[1]`, `[1, 2]`. -/
theorem is_parallel_with_spec_witness :
    ([(2 : ℚ), 4].length = [(0 : ℚ), 0].length ∧
      ∃ p, is_parallel_with [(2 : ℚ), 4] [(0 : ℚ), 0] = .ok p ∧
        (p ↔ is_zero [(2 : ℚ), 4] ((DEFAULT_TOLERANCE : ℚ) : ℝ) ∨
              is_zero [(0 : ℚ), 0] ((DEFAULT_TOLERANCE : ℚ) : ℝ) ∨
              ∃ θ, angle_with [(2 : ℚ), 4] [(0 : ℚ), 0] true = .ok θ ∧
                (θ = 0 ∨ θ = Real.pi))) ∧
    ([(1 : ℚ)].length ≠ [(1 : ℚ), 2].length ∧
      is_parallel_with [(1 : ℚ)] [(1 : ℚ), 2] = .error .dimensionMismatch) :=
  ⟨⟨rfl, (is_parallel_with_spec [2, 4] [0, 0]).2 rfl⟩,
   ⟨by decide, (is_parallel_with_spec [1] [1, 2]).1 (by decide)⟩⟩

/-- C6: with a zero-magnitude basis, `component_parallel_to` fails with
`NoUniqueParallelComponent` and `component_orthogonal_to` fails with
`NoUniqueOrthogonalComponent` (the translated forms of the underlying
normalization failure), and the low-level `CannotNormalizeZeroVector`
failure never escapes either operation. -/
theorem component_zero_basis_spec (v b : List ℚ) (hb : magnitude b = 0) :
    component_parallel_to v b = .error .noUniqueParallelComponent ∧
    component_orthogonal_to v b = .error .noUniqueOrthogonalComponent ∧
    (∀ x y : List ℚ,
      component_parallel_to x y ≠ .error .cannotNormalizeZeroVector ∧
      component_orthogonal_to x y ≠ .error .cannotNormalizeZeroVector) := by
  have hb' : sumSq b = 0 := (magnitude_eq_zero_iff_sumSq b).mp hb
  exact ⟨component_parallel_to_zero v b hb',
    component_orthogonal_to_zero v b hb',
    fun x y => ⟨component_parallel_to_never_cnz x y,
      component_orthogonal_to_never_cnz x y⟩⟩

/-- Witness for C6 at `v = [1, 2]` and the zero basis `[0, 0]`. -/
theorem component_zero_basis_spec_witness :
    magnitude [(0 : ℚ), 0] = 0 ∧
    component_parallel_to [(1 : ℚ), 2] [(0 : ℚ), 0] =
      .error .noUniqueParallelComponent ∧
    component_orthogonal_to [(1 : ℚ), 2] [(0 : ℚ), 0] =
      .error .noUniqueOrthogonalComponent := by
  have hb : magnitude [(0 : ℚ), 0] = 0 :=
    (magnitude_eq_zero_iff_sumSq _).mpr (by norm_num [sumSq])
  exact ⟨hb, (component_zero_basis_spec [1, 2] [0, 0] hb).1,
    (component_zero_basis_spec [1, 2] [0, 0] hb).2.1⟩

/-- C7: for any vector and a nonzero basis of the same dimension, the
parallel and orthogonal components both exist and sum (with the
library's vector addition, at real coordinates) back to the original
vector — exactly, in the idealized real semantics. -/
theorem decomposition_spec (v b : List ℚ) (hb : sumSq b ≠ 0)
    (hl : v.length = b.length) :
    ∃ p o, component_parallel_to v b = .ok p ∧
      component_orthogonal_to v b = .ok o ∧ raddV p o = toR v := by
  refine ⟨_, _, component_parallel_to_ok v b hb hl,
    component_orthogonal_to_ok v b hb hl, ?_⟩
  apply raddV_rsubV_cancel
  rw [rscale_length, unitOf_length, toR_length, hl]

/-- Witness for C7 at `v = [1, 0]`, `basis = [0, 1]`. -/
theorem decomposition_spec_witness :
    sumSq [(0 : ℚ), 1] ≠ 0 ∧
    [(1 : ℚ), 0].length = [(0 : ℚ), 1].length ∧
    (∃ p o, component_parallel_to [(1 : ℚ), 0] [(0 : ℚ), 1] = .ok p ∧
      component_orthogonal_to [(1 : ℚ), 0] [(0 : ℚ), 1] = .ok o ∧
      raddV p o = toR [(1 : ℚ), 0]) := by
  have hb : sumSq [(0 : ℚ), 1] ≠ 0 := by norm_num [sumSq]
  exact ⟨hb, rfl, decomposition_spec [1, 0] [0, 1] hb rfl⟩
